import Mathlib

namespace SwarmIndexer

/-- 2^32, the modulus for 32-bit word arithmetic in SHA-256. -/
def w32 : Nat := 4294967296

/-- Right rotation of a 32-bit word. -/
def rotr32 (n x : Nat) : Nat := ((x >>> n) ||| (x <<< (32 - n))) % w32

/-- SHA-256 round constants. -/
def shaK : List Nat :=
  [1116352408, 1899447441, 3049323471, 3921009573, 961987163, 1508970993,
   2453635748, 2870763221, 3624381080, 310598401, 607225278, 1426881987,
   1925078388, 2162078206, 2614888103, 3248222580, 3835390401, 4022224774,
   264347078, 604807628, 770255983, 1249150122, 1555081692, 1996064986,
   2554220882, 2821834349, 2952996808, 3210313671, 3336571891, 3584528711,
   113926993, 338241895, 666307205, 773529912, 1294757372, 1396182291,
   1695183700, 1986661051, 2177026350, 2456956037, 2730485921, 2820302411,
   3259730800, 3345764771, 3516065817, 3600352804, 4094571909, 275423344,
   430227734, 506948616, 659060556, 883997877, 958139571, 1322822218,
   1537002063, 1747873779, 1955562222, 2024104815, 2227730452, 2361852424,
   2428436474, 2756734187, 3204031479, 3329325298]

/-- SHA-256 initial hash state. -/
def shaH0 : List Nat :=
  [1779033703, 3144134277, 1013904242, 2773480762,
   1359893119, 2600822924, 528734635, 1541459225]

/-- SHA-256 Ch function. -/
def chf (x y z : Nat) : Nat := (x &&& y) ^^^ ((x ^^^ (w32 - 1)) &&& z)

/-- SHA-256 Maj function. -/
def majf (x y z : Nat) : Nat := (x &&& y) ^^^ (x &&& z) ^^^ (y &&& z)

/-- SHA-256 big sigma 0. -/
def bsig0 (x : Nat) : Nat := (rotr32 2 x) ^^^ (rotr32 13 x) ^^^ (rotr32 22 x)

/-- SHA-256 big sigma 1. -/
def bsig1 (x : Nat) : Nat := (rotr32 6 x) ^^^ (rotr32 11 x) ^^^ (rotr32 25 x)

/-- SHA-256 small sigma 0. -/
def ssig0 (x : Nat) : Nat := (rotr32 7 x) ^^^ (rotr32 18 x) ^^^ (x >>> 3)

/-- SHA-256 small sigma 1. -/
def ssig1 (x : Nat) : Nat := (rotr32 17 x) ^^^ (rotr32 19 x) ^^^ (x >>> 10)

/-- Big-endian 8-byte encoding of a natural number. -/
def be64 (n : Nat) : List Nat :=
  [(n >>> 56) % 256, (n >>> 48) % 256, (n >>> 40) % 256, (n >>> 32) % 256,
   (n >>> 24) % 256, (n >>> 16) % 256, (n >>> 8) % 256, n % 256]

/-- Big-endian 4-byte encoding of a 32-bit word. -/
def be32 (n : Nat) : List Nat := [(n >>> 24) % 256, (n >>> 16) % 256, (n >>> 8) % 256, n % 256]

/-- SHA-256 padding: append 0x80, zeros, and the 64-bit big-endian bit length. -/
def sha256pad (msg : List Nat) : List Nat :=
  let z := (120 - ((msg.length + 1) % 64)) % 64
  msg ++ [0x80] ++ List.replicate z 0 ++ be64 (8 * msg.length)

/-- Group bytes into big-endian 32-bit words. -/
def bytesToWords : List Nat → List Nat
  | a :: b :: c :: d :: rest => ((a <<< 24) ||| (b <<< 16) ||| (c <<< 8) ||| d) :: bytesToWords rest
  | _ => []

/-- Extend the 16 block words to the 64-entry SHA-256 message schedule. -/
def msgSchedule (w16 : List Nat) : List Nat :=
  (List.range 48).foldl (fun w _ =>
    let n := w.length
    w ++ [(ssig1 (w.getD (n - 2) 0) + w.getD (n - 7) 0 + ssig0 (w.getD (n - 15) 0) + w.getD (n - 16) 0) % w32]) w16

/-- One SHA-256 compression round over the 8-word working state. -/
def shaRound (w : List Nat) (s : List Nat) (i : Nat) : List Nat :=
  let e := s.getD 4 0
  let t1 := (s.getD 7 0 + bsig1 e + chf e (s.getD 5 0) (s.getD 6 0) + shaK.getD i 0 + w.getD i 0) % w32
  let t2 := (bsig0 (s.getD 0 0) + majf (s.getD 0 0) (s.getD 1 0) (s.getD 2 0)) % w32
  [(t1 + t2) % w32, s.getD 0 0, s.getD 1 0, s.getD 2 0, (s.getD 3 0 + t1) % w32, e, s.getD 5 0, s.getD 6 0]

/-- SHA-256 compression of one 64-byte block into the hash state. -/
def compressBlock (h : List Nat) (block : List Nat) : List Nat :=
  let w := msgSchedule (bytesToWords block)
  let s := (List.range 64).foldl (shaRound w) h
  (h.zip s).map (fun p => (p.1 + p.2) % w32)

/-- SHA-256 digest (32 bytes) of a byte sequence. -/
def sha256 (msg : List Nat) : List Nat :=
  let p := sha256pad msg
  let blocks := (List.range (p.length / 64)).map (fun b => (p.drop (64 * b)).take 64)
  ((blocks.foldl compressBlock shaH0).map be32).flatten

/-- Lowercase hexadecimal digits. -/
def hexDigits : List Char := "0123456789abcdef".toList

/-- Lowercase hexadecimal encoding of a byte sequence, as in Go's hex.EncodeToString. -/
def hexEncode (bytes : List Nat) : String :=
  String.mk ((bytes.map (fun b => [hexDigits.getD (b / 16 % 16) '0', hexDigits.getD (b % 16) '0'])).flatten)

/-- UTF-8 encoding of one character. -/
def utf8Bytes (c : Char) : List Nat :=
  let n := c.toNat
  if n < 128 then [n]
  else if n < 2048 then [192 ||| (n >>> 6), 128 ||| (n &&& 63)]
  else if n < 65536 then [224 ||| (n >>> 12), 128 ||| ((n >>> 6) &&& 63), 128 ||| (n &&& 63)]
  else [240 ||| (n >>> 18), 128 ||| ((n >>> 12) &&& 63), 128 ||| ((n >>> 6) &&& 63), 128 ||| (n &&& 63)]

/-- UTF-8 bytes of a string, as Go's []byte(s). -/
def strBytes (s : String) : List Nat := (s.data.map utf8Bytes).flatten

/-- Hex-encoded SHA-256 of a string's UTF-8 bytes. -/
def sha256hex (s : String) : String := hexEncode (sha256 (strBytes s))




/-! ## Chunk identifiers (src/internal/indexer/indexer.go)

generateChunkID mirrors the Go function: sha256 of "path:startLine",
hex-encoded, truncated to the first 16 characters. -/

/-- Embedding of generateChunkID from indexer.go: the id of an indexed chunk. -/
def generateChunkID (path : String) (startLine : Nat) : String :=
  (sha256hex (path ++ ":" ++ toString startLine)).take 16

/-! ## Directory content hash (src/internal/metadata/metadata.go) -/

/-- Name of the per-directory metadata sidecar file. -/
def metadataFileName : String := ".swarm-indexer-metadata.json"

/-- One entry seen by the directory walk in ComputeHash: its path relative to
the root, its base name, whether it is a directory, and its mtime in
nanoseconds (Go info.ModTime().UnixNano()). -/
structure DirEntry where
  relPath : String
  name : String
  isDir : Bool
  mtimeNano : Int
deriving DecidableEq, Repr

/-- Boolean string comparison used for sorting the hash entries, matching Go's
sort.Strings lexicographic order (UTF-8 byte order equals code-point order). -/
def strLe (a b : String) : Bool := decide (a ≤ b)

/-- The "relPath:mtime" strings ComputeHash collects: directories and the
metadata file itself are skipped. -/
def entryStrings (es : List DirEntry) : List String :=
  (es.filter (fun e => !e.isDir && e.name != metadataFileName)).map
    (fun e => e.relPath ++ ":" ++ toString e.mtimeNano)

/-- Embedding of metadata.ComputeHash: sort the entry strings, concatenate,
and hex-encode the SHA-256 digest. -/
def computeHash (es : List DirEntry) : String :=
  sha256hex (String.join ((entryStrings es).mergeSort strLe))

/-- The (relative path, mtime) pairs of the non-metadata files under a root:
the data the content hash is claimed to depend on. -/
def hashPairs (es : List DirEntry) : List (String × Int) :=
  (es.filter (fun e => !e.isDir && e.name != metadataFileName)).map
    (fun e => (e.relPath, e.mtimeNano))

/-- Embedding of metadata.Metadata (the persisted sidecar content). -/
structure Metadata where
  lastIndexed : Int
  fileCount : Nat
  contentHash : String
  projectType : String
  languages : List String
deriving DecidableEq, Repr

/-! ## Per-file pipeline (Indexer.processFile in indexer.go)

Collaborator calls (secrets scanner, walker read, chunker, embeddings) are
modelled by their responses for the one file at hand, recorded in a FileEnv;
processFile consumes them in the exact order of the Go code. Embedding
vectors are modelled with integer components: no claim depends on float
values. -/

/-- One chunk produced by the chunker collaborator. -/
structure Chunk where
  content : String
  startLine : Nat
  endLine : Nat
  ctype : String
deriving DecidableEq, Repr

/-- Embedding of the IndexedChunk record (part_007). -/
structure IndexedChunk where
  id : String
  filePath : String
  projectPath : String
  projectType : String
  language : String
  chunkType : String
  content : String
  embedding : List Int
  startLine : Nat
  endLine : Nat
  lastIndexed : Int
deriving DecidableEq, Repr

/-- Embedding of fileJob from indexer.go. -/
structure FileJob where
  path : String
  relPath : String
  projectPath : String
deriving DecidableEq, Repr

/-- Responses of the per-file collaborators for one job, in the order
processFile consults them. -/
structure FileEnv where
  scanFile : Except String Bool
  readFile : Except String String
  scanContent : Except String (List String)
  language : String
  chunks : Except String (List Chunk)
  embeds : Except String (List (List Int))

/-- The record processFile builds for the j-th chunk of a file. -/
def mkRecord (now : Int) (job : FileJob) (language : String)
    (embeds : List (List Int)) (j : Nat) (c : Chunk) : IndexedChunk :=
  { id := generateChunkID job.path c.startLine
    filePath := job.relPath
    projectPath := job.projectPath
    projectType := "unknown"
    language := language
    chunkType := c.ctype
    content := c.content
    embedding := embeds.getD j []
    startLine := c.startLine
    endLine := c.endLine
    lastIndexed := now }

/-- Embedding of Indexer.processFile: skip-check, read, content scan and
redact, chunk, embed (one batched call for the whole file), build records.
Returns the result together with the number of embedding calls made. -/
def processFile (now : Int) (fe : FileEnv) (job : FileJob) :
    Except String (List IndexedChunk) × Nat :=
  match fe.scanFile with
  | .error e => (.error ("secret scan failed: " ++ e), 0)
  | .ok true => (.ok [], 0)
  | .ok false =>
    match fe.readFile with
    | .error e => (.error ("read failed: " ++ e), 0)
    | .ok _ =>
      match fe.scanContent with
      | .error e => (.error ("content scan failed: " ++ e), 0)
      | .ok _ =>
        match fe.chunks with
        | .error e => (.error ("chunking failed: " ++ e), 0)
        | .ok [] => (.ok [], 0)
        | .ok chunks =>
          match fe.embeds with
          | .error e => (.error ("embedding failed: " ++ e), 1)
          | .ok embeds =>
            (.ok (chunks.enum.map (fun jc => mkRecord now job fe.language embeds jc.1 jc.2)), 1)

/-! ## Orchestrator (Indexer.indexPath / IndexPaths in indexer.go)

The worker pool drains one shared queue; the claims under proof are
schedule-independent counts and outcomes, so the pool is serialized into one
canonical schedule: jobs are handled in queue order, with one context check
per job (the code checks the context between dequeuing a job and processing
it) and one check after the workers join. The context is modelled as the
check index from which it reports done. The metadata Manager used by
indexPath is absent from the repository snapshot; its hash comparison is
modelled from the spec and from metadata.go's Load/ComputeHash/HasChanged. -/

/-- One file yielded by the walker. -/
structure WFile where
  path : String
  relPath : String
deriving DecidableEq, Repr

/-- Deterministic collaborator responses for indexing one root. -/
structure RootEnv where
  root : String
  loadResult : Except String Metadata
  dirEntries : List DirEntry
  walk : Except String (List WFile)
  fileEnv : Nat → FileEnv
  upsertOk : Nat → Bool
  ctxCancelFrom : Option Nat
  now : Int

/-- Whether the context reports done at the given check index. -/
def ctxDone (c : Option Nat) (step : Nat) : Bool :=
  match c with
  | none => false
  | some k => decide (k ≤ step)

/-- Modelled from the spec: metadata.Manager.HasChanged, the collaborator
method indexPath consults (its Go source is not in the snapshot; only its
callers are). Per spec section 4.1 and metadata.go it loads the stored
metadata and compares its content hash with the freshly computed hash of the
root; a failed load counts as changed. -/
def hashChangedB (env : RootEnv) : Bool :=
  match env.loadResult with
  | .error _ => true
  | .ok m => m.contentHash != computeHash env.dirEntries

/-- Worker-pool state: context-check counter, shared batch buffer, flush
attempts so far with their outcomes, and the run counters. -/
structure WState where
  step : Nat
  batch : List IndexedChunk
  flushes : List (List IndexedChunk)
  flushResults : List Bool
  embedCalls : Nat
  failures : Nat
  processed : Nat

/-- Initial worker-pool state. -/
def initWState : WState :=
  { step := 0, batch := [], flushes := [], flushResults := [], embedCalls := 0, failures := 0, processed := 0 }

/-- The jobs the producer enqueues for the walked files, with their queue
positions. -/
def jobsOf (env : RootEnv) (files : List WFile) : List (Nat × FileJob) :=
  files.enum.map (fun p => (p.1, { path := p.2.path, relPath := p.2.relPath, projectPath := env.root }))

/-- Append a file's records to the shared batch; when the buffer reaches
batchSize it is detached and flushed (flushBatch ignores the upsert error
beyond logging, so only the attempt and its outcome are recorded). -/
def appendChunks (env : RootEnv) (batchSize : Nat) (s : WState) (chunks : List IndexedChunk) : WState :=
  if chunks.isEmpty then s
  else
    let b := s.batch ++ chunks
    if batchSize ≤ b.length then
      { s with batch := [],
               flushes := s.flushes ++ [b],
               flushResults := s.flushResults ++ [env.upsertOk s.flushes.length] }
    else { s with batch := b }

/-- Processing of one dequeued job by a worker: run the per-file pipeline,
count a failure on error, and append the produced records to the batch. -/
def stepJob (env : RootEnv) (batchSize : Nat) (s : WState) (j : Nat × FileJob) : WState :=
  let r := processFile env.now (env.fileEnv j.1) j.2
  appendChunks env batchSize
    { s with step := s.step + 1,
             embedCalls := s.embedCalls + r.2,
             failures := s.failures + (match r.1 with | .ok _ => 0 | .error _ => 1),
             processed := s.processed + 1 }
    (match r.1 with | .ok cs => cs | .error _ => [])

/-- The worker loop: check the context before handling each dequeued job,
process it, and continue until the queue is drained or the context is
done. -/
def runJobs (env : RootEnv) (batchSize : Nat) : List (Nat × FileJob) → WState → Bool × WState
  | [], s => (false, s)
  | j :: rest, s =>
    if ctxDone env.ctxCancelFrom s.step then (true, s)
    else runJobs env batchSize rest (stepJob env batchSize s j)

/-- Flush of the remaining partial batch after the workers join. -/
def finalFlush (env : RootEnv) (s : WState) : WState :=
  if s.batch.isEmpty then s
  else
    { s with batch := [],
             flushes := s.flushes ++ [s.batch],
             flushResults := s.flushResults ++ [env.upsertOk s.flushes.length] }

/-- Observable effects of indexing one root. -/
structure Trace where
  walkCalls : Nat
  embedCalls : Nat
  flushes : List (List IndexedChunk)
  flushResults : List Bool
  saves : List String
  processed : Nat
  failures : Nat
deriving Repr

/-- The empty effect trace. -/
def emptyTrace : Trace :=
  { walkCalls := 0, embedCalls := 0, flushes := [], flushResults := [], saves := [], processed := 0, failures := 0 }

/-- Trace assembled from a final worker state. -/
def traceOf (s : WState) (walkCalls : Nat) (saves : List String) : Trace :=
  { walkCalls := walkCalls, embedCalls := s.embedCalls, flushes := s.flushes,
    flushResults := s.flushResults, saves := saves, processed := s.processed, failures := s.failures }

/-- Errors indexPath can return. -/
inductive IndexErr
  | canceled
  | walkFailed (msg : String)
deriving DecidableEq, Repr

/-- Embedding of Indexer.indexPath: incremental-skip check, walk, worker
pool, post-join cancellation check, final flush, metadata save. A save is
recorded with the hash it persists; a failed save only warns in Go, so the
trace records the attempt. -/
def indexPath (batchSize : Nat) (env : RootEnv) : Except IndexErr Unit × Trace :=
  if hashChangedB env = false then (.ok (), emptyTrace)
  else
    match env.walk with
    | .error e => (.error (.walkFailed e), { emptyTrace with walkCalls := 1 })
    | .ok files =>
      if files.isEmpty then (.ok (), { emptyTrace with walkCalls := 1 })
      else
        let r := runJobs env batchSize (jobsOf env files) initWState
        if r.1 then (.error .canceled, traceOf r.2 1 [])
        else if ctxDone env.ctxCancelFrom r.2.step then (.error .canceled, traceOf r.2 1 [])
        else (.ok (), traceOf (finalFlush env r.2) 1 [computeHash env.dirEntries])

/-- Embedding of Indexer.IndexPaths: per root, a cancellation error is
returned at once; any other root error is only logged and the remaining
roots still run; the overall run then reports success. -/
def indexPaths (batchSize : Nat) : List RootEnv → Except IndexErr Unit
  | [] => .ok ()
  | env :: rest =>
    match (indexPath batchSize env).1 with
    | .error .canceled => .error .canceled
    | _ => indexPaths batchSize rest

/-! ## Embedding client retry loop (part_018, GeminiClient.doRequestWithRetry)

One attempt's outcome is either success, an APIError with its HTTP status,
a transient transport error, or a context error surfaced by the request
itself. The loop makes at most maxRetries+1 = 4 attempts, sleeping the
exponential backoff before each retry (the sleep select is cancellable). -/

/-- Outcome of one doRequest attempt. -/
inductive ReqOutcome
  | ok
  | apiErr (statusCode : Nat)
  | transportErr (msg : String)
  | ctxErr
deriving DecidableEq, Repr

/-- Result of doRequestWithRetry. -/
inductive RetryResult
  | ok
  | apiErr (statusCode : Nat)
  | transportErr (msg : String)
  | ctxErr
  | exhausted (last : ReqOutcome)
deriving DecidableEq, Repr

/-- Embedding of APIError.IsRetryable: true exactly for 429, 500, 502, 503, 504. -/
def isRetryableStatus (s : Nat) : Bool :=
  s == 429 || s == 500 || s == 502 || s == 503 || s == 504

/-- Whether an attempt outcome makes the loop try again. -/
def retriesOn : ReqOutcome → Bool
  | .apiErr s => isRetryableStatus s
  | .transportErr _ => true
  | _ => false

/-- Deterministic environment for one logical request: the outcome of each
attempt and whether the context is done at the backoff select before each
retry. -/
structure RetryEnv where
  outcomes : Nat → ReqOutcome
  ctxDoneBeforeSleep : Nat → Bool

/-- The retry loop body: remaining counts the attempts still allowed
(4 at the start), attempt is the current attempt index, backoff the next
sleep in seconds. Returns the result, the number of attempts made, and the
sleeps performed. -/
def retryAux (env : RetryEnv) : Nat → Nat → Nat → Nat → List Nat → ReqOutcome → RetryResult × Nat × List Nat
  | 0, _, _, calls, sleeps, last => (.exhausted last, calls, sleeps)
  | remaining + 1, attempt, backoff, calls, sleeps, _ =>
    if attempt == 0 then
      match env.outcomes attempt with
      | .ok => (.ok, calls + 1, sleeps)
      | .apiErr s =>
        if isRetryableStatus s then retryAux env remaining (attempt + 1) backoff (calls + 1) sleeps (.apiErr s)
        else (.apiErr s, calls + 1, sleeps)
      | .transportErr m => retryAux env remaining (attempt + 1) backoff (calls + 1) sleeps (.transportErr m)
      | .ctxErr => (.ctxErr, calls + 1, sleeps)
    else if env.ctxDoneBeforeSleep attempt then (.ctxErr, calls, sleeps)
    else
      match env.outcomes attempt with
      | .ok => (.ok, calls + 1, sleeps ++ [backoff])
      | .apiErr s =>
        if isRetryableStatus s then
          retryAux env remaining (attempt + 1) (backoff * 2) (calls + 1) (sleeps ++ [backoff]) (.apiErr s)
        else (.apiErr s, calls + 1, sleeps ++ [backoff])
      | .transportErr m =>
        retryAux env remaining (attempt + 1) (backoff * 2) (calls + 1) (sleeps ++ [backoff]) (.transportErr m)
      | .ctxErr => (.ctxErr, calls + 1, sleeps ++ [backoff])

/-- Embedding of doRequestWithRetry: 4 attempts total (maxRetries = 3),
initial backoff 1 second, multiplier 2. -/
def runRetry (env : RetryEnv) : RetryResult × Nat × List Nat :=
  retryAux env 4 0 1 0 [] .ok

/-! ## Embedding client EmbedBatch (part_018) -/

/-- Errors EmbedBatch can return. -/
inductive EmbedError
  | emptyInput
  | rateLimiter
  | request (r : RetryResult)
deriving DecidableEq, Repr

/-- Environment for one EmbedBatch call: the rate-limiter wait outcome, the
retry environment of the batched request, and the embeddings the endpoint
returns on success. -/
structure EmbedEnv where
  limiterOk : Bool
  retryEnv : RetryEnv
  responseEmbeddings : List (List Int)

/-- Embedding of GeminiClient.EmbedBatch: reject empty input before any
network activity, wait on the rate limiter, then issue one batched request
through the retry loop. Returns the result and the number of HTTP calls. -/
def embedBatch (env : EmbedEnv) (texts : List String) : Except EmbedError (List (List Int)) × Nat :=
  if texts.isEmpty then (.error .emptyInput, 0)
  else if !env.limiterOk then (.error .rateLimiter, 0)
  else
    match runRetry env.retryEnv with
    | (.ok, calls, _) => (.ok env.responseEmbeddings, calls)
    | (r, calls, _) => (.error (.request r), calls)

/-! ## Search-index client batched upsert (part_007, TypesenseClient.UpsertChunks) -/

/-- Consecutive groups of at most bs elements, in input order (the Go loop
steps the start index by the batch size). The fuel argument is the input
length, which suffices whenever bs is positive. -/
def groupsOfAux (bs : Nat) : Nat → List IndexedChunk → List (List IndexedChunk)
  | 0, _ => []
  | _, [] => []
  | fuel + 1, l => l.take bs :: groupsOfAux bs fuel (l.drop bs)

/-- The groups UpsertChunks would write for an input, in order. -/
def groupsOf (bs : Nat) (l : List IndexedChunk) : List (List IndexedChunk) :=
  groupsOfAux bs l.length l

/-- Issue the group writes in order: a failing group stops the loop and
reports its index; groups already written stay in the trace. -/
def runGroups (outcome : Nat → Bool) : List (List IndexedChunk) → Nat → Except Nat Unit × List (List IndexedChunk)
  | [], _ => (.ok (), [])
  | g :: rest, idx =>
    if outcome idx then
      let r := runGroups outcome rest (idx + 1)
      (r.1, g :: r.2)
    else (.error idx, [g])

/-- Effective batch size of UpsertChunks: a non-positive configured value
falls back to the default 100 (the Int mirrors the Go int field). -/
def effBatchSize (batchSize : Int) : Nat :=
  if batchSize ≤ 0 then 100 else batchSize.toNat

/-- Embedding of TypesenseClient.UpsertChunks: empty input returns at once
with no network call; otherwise split into groups and write them in order. -/
def upsertChunks (batchSize : Int) (outcome : Nat → Bool) (chunks : List IndexedChunk) :
    Except Nat Unit × List (List IndexedChunk) :=
  if chunks.isEmpty then (.ok (), [])
  else runGroups outcome (groupsOf (effBatchSize batchSize) chunks) 0

/-! ## Search-index client hybrid search (part_007, TypesenseClient.Search)

The embedding vector's components are modelled as integers; only the
presence of the vector component matters to the claims. -/

/-- The single search of the multi_search request Search issues. -/
structure SearchRequest where
  collection : String
  q : String
  queryBy : String
  perPage : Int
  vectorQuery : Option String
deriving DecidableEq, Repr

/-- Embedding of formatEmbedding: comma-separated components in brackets. -/
def formatEmbedding (v : List Int) : String :=
  "[" ++ String.intercalate "," (v.map toString) ++ "]"

/-- The request body Search builds: lexical match on content, plus the
vector component exactly when the query vector is non-empty. -/
def buildSearchRequest (collection q : String) (embedding : List Int) (limit : Int) : SearchRequest :=
  { collection := collection
    q := q
    queryBy := "content"
    perPage := limit
    vectorQuery :=
      if embedding.length > 0 then some ("embedding:(" ++ formatEmbedding embedding ++ ")")
      else none }

/-- Backend reply to the multi_search call: HTTP status and the hit
documents of each inner search. -/
structure SearchResponse where
  status : Nat
  results : List (List IndexedChunk)
deriving Repr

/-- Embedding of TypesenseClient.Search: build the request, fail on a
non-200 reply, otherwise collect the documents of the first result (an
absent or empty hit list yields the empty slice, not an error). Returns the
issued request together with the outcome. -/
def search (collection q : String) (embedding : List Int) (limit : Int) (resp : SearchResponse) :
    SearchRequest × Except String (List IndexedChunk) :=
  (buildSearchRequest collection q embedding limit,
   if resp.status != 200 then .error ("search failed with status " ++ toString resp.status)
   else .ok (resp.results.headD []))

/-! ## Lemmas: retry loop stepping -/

/-- Exhausting the attempt budget returns the retries-exhausted error with
the last attempt's error. -/
theorem retryAux_exhaust (env : RetryEnv) (attempt backoff calls : Nat) (sleeps : List Nat) (last : ReqOutcome) :
    retryAux env 0 attempt backoff calls sleeps last = (.exhausted last, calls, sleeps) := rfl

/-- A retryable failure on attempt 0 recurses with no sleep. -/
theorem retryAux_step0 (env : RetryEnv) (r backoff calls : Nat) (sleeps : List Nat) (last : ReqOutcome)
    (h : retriesOn (env.outcomes 0) = true) :
    retryAux env (r + 1) 0 backoff calls sleeps last =
      retryAux env r 1 backoff (calls + 1) sleeps (env.outcomes 0) := by
  rcases ho : env.outcomes 0 with _ | s | m | _ <;>
    rw [ho, retriesOn] at h <;>
    simp_all [retryAux, ho]

/-- A retryable failure on a retry attempt sleeps the current backoff,
doubles it, and recurses. -/
theorem retryAux_stepS (env : RetryEnv) (r a backoff calls : Nat) (sleeps : List Nat) (last : ReqOutcome)
    (hctx : env.ctxDoneBeforeSleep (a + 1) = false)
    (h : retriesOn (env.outcomes (a + 1)) = true) :
    retryAux env (r + 1) (a + 1) backoff calls sleeps last =
      retryAux env r (a + 2) (backoff * 2) (calls + 1) (sleeps ++ [backoff]) (env.outcomes (a + 1)) := by
  rcases ho : env.outcomes (a + 1) with _ | s | m | _ <;>
    rw [ho, retriesOn] at h <;>
    simp_all [retryAux, ho]

/-- A success on attempt 0 returns at once. -/
theorem retryAux_ok0 (env : RetryEnv) (r backoff calls : Nat) (sleeps : List Nat) (last : ReqOutcome)
    (h : env.outcomes 0 = .ok) :
    retryAux env (r + 1) 0 backoff calls sleeps last = (.ok, calls + 1, sleeps) := by
  simp [retryAux, h]

/-- A success on a retry attempt returns after its backoff sleep. -/
theorem retryAux_okS (env : RetryEnv) (r a backoff calls : Nat) (sleeps : List Nat) (last : ReqOutcome)
    (hctx : env.ctxDoneBeforeSleep (a + 1) = false)
    (h : env.outcomes (a + 1) = .ok) :
    retryAux env (r + 1) (a + 1) backoff calls sleeps last = (.ok, calls + 1, sleeps ++ [backoff]) := by
  simp [retryAux, h, hctx]

/-- A non-retryable API error on attempt 0 returns that error at once. -/
theorem retryAux_api0 (env : RetryEnv) (r backoff calls : Nat) (sleeps : List Nat) (last : ReqOutcome)
    (s : Nat) (h : env.outcomes 0 = .apiErr s) (hs : isRetryableStatus s = false) :
    retryAux env (r + 1) 0 backoff calls sleeps last = (.apiErr s, calls + 1, sleeps) := by
  simp [retryAux, h, hs]

/-- A non-retryable API error on a retry attempt returns that error after
its backoff sleep, with no further attempts. -/
theorem retryAux_apiS (env : RetryEnv) (r a backoff calls : Nat) (sleeps : List Nat) (last : ReqOutcome)
    (s : Nat) (hctx : env.ctxDoneBeforeSleep (a + 1) = false)
    (h : env.outcomes (a + 1) = .apiErr s) (hs : isRetryableStatus s = false) :
    retryAux env (r + 1) (a + 1) backoff calls sleeps last = (.apiErr s, calls + 1, sleeps ++ [backoff]) := by
  simp [retryAux, h, hs, hctx]

/-- After k retryable failures (k at most 3, context live), the loop is at
attempt k with k calls made, backoff 2^(k-1), and the first k-1 backoff
sleeps performed. -/
theorem retry_chain (env : RetryEnv) (hctx : ∀ i, env.ctxDoneBeforeSleep i = false) :
    ∀ k, k ≤ 3 → (∀ j, j < k → retriesOn (env.outcomes j) = true) →
      runRetry env = retryAux env (4 - k) k (2 ^ (k - 1)) k
        ((List.range (k - 1)).map (fun i => 2 ^ i))
        (if k = 0 then ReqOutcome.ok else env.outcomes (k - 1)) := by
  intro k hk hpre
  interval_cases k
  · rfl
  · exact retryAux_step0 env 3 1 0 [] ReqOutcome.ok (hpre 0 (by omega))
  · exact (retryAux_step0 env 3 1 0 [] ReqOutcome.ok (hpre 0 (by omega))).trans
      (retryAux_stepS env 2 0 1 1 [] (env.outcomes 0) (hctx 1) (hpre 1 (by omega)))
  · exact (retryAux_step0 env 3 1 0 [] ReqOutcome.ok (hpre 0 (by omega))).trans
      ((retryAux_stepS env 2 0 1 1 [] (env.outcomes 0) (hctx 1) (hpre 1 (by omega))).trans
        (retryAux_stepS env 1 1 2 2 ([] ++ [1]) (env.outcomes 1) (hctx 2) (hpre 2 (by omega))))

/-- C3: for every embedding request, a retryable status (429, 500, 502, 503,
504) or transient transport failure is retried with backoff sleeps of 1s,
2s, 4s for at most 4 attempts in total; a non-retryable status returns that
error immediately with no further attempts; after all 4 attempts fail the
client returns a retries-exhausted error carrying the last attempt's
error. -/
theorem retry_policy_correct (env : RetryEnv)
    (hctx : ∀ i, env.ctxDoneBeforeSleep i = false) :
    ((∀ j, j ≤ 3 → retriesOn (env.outcomes j) = true) →
        runRetry env = (.exhausted (env.outcomes 3), 4, [1, 2, 4]))
    ∧ (∀ k s, k ≤ 3 → (∀ j, j < k → retriesOn (env.outcomes j) = true) →
        env.outcomes k = .apiErr s → isRetryableStatus s = false →
        runRetry env = (.apiErr s, k + 1, (List.range k).map (fun i => 2 ^ i)))
    ∧ (∀ k, k ≤ 3 → (∀ j, j < k → retriesOn (env.outcomes j) = true) →
        env.outcomes k = .ok →
        runRetry env = (.ok, k + 1, (List.range k).map (fun i => 2 ^ i))) := by
  refine ⟨?_, ?_, ?_⟩
  · intro hall
    have hc := retry_chain env hctx 3 (by omega) (fun j hj => hall j (by omega))
    exact hc.trans
      ((retryAux_stepS env 0 2 4 3 ((List.range 2).map (fun i => 2 ^ i)) (env.outcomes 2)
          (hctx 3) (hall 3 (by omega))).trans
        (retryAux_exhaust env 4 8 4 _ _))
  · intro k s hk hpre hout hs
    have hc := retry_chain env hctx k hk hpre
    interval_cases k
    · exact hc.trans (retryAux_api0 env 3 1 0 [] ReqOutcome.ok s hout hs)
    · exact hc.trans (retryAux_apiS env 2 0 1 1 [] (env.outcomes 0) s (hctx 1) hout hs)
    · exact hc.trans (retryAux_apiS env 1 1 2 2 ((List.range 1).map (fun i => 2 ^ i)) (env.outcomes 1) s (hctx 2) hout hs)
    · exact hc.trans (retryAux_apiS env 0 2 4 3 ((List.range 2).map (fun i => 2 ^ i)) (env.outcomes 2) s (hctx 3) hout hs)
  · intro k hk hpre hout
    have hc := retry_chain env hctx k hk hpre
    interval_cases k
    · exact hc.trans (retryAux_ok0 env 3 1 0 [] ReqOutcome.ok hout)
    · exact hc.trans (retryAux_okS env 2 0 1 1 [] (env.outcomes 0) (hctx 1) hout)
    · exact hc.trans (retryAux_okS env 1 1 2 2 ((List.range 1).map (fun i => 2 ^ i)) (env.outcomes 1) (hctx 2) hout)
    · exact hc.trans (retryAux_okS env 0 2 4 3 ((List.range 2).map (fun i => 2 ^ i)) (env.outcomes 2) (hctx 3) hout)

/-- Mocked endpoint answering 429, 429, then 200. -/
def mockRetry429 : RetryEnv :=
  { outcomes := fun n => if n < 2 then .apiErr 429 else .ok, ctxDoneBeforeSleep := fun _ => false }

/-- Mocked endpoint answering 503 on every call. -/
def mockRetry503 : RetryEnv :=
  { outcomes := fun _ => .apiErr 503, ctxDoneBeforeSleep := fun _ => false }

/-- Witness for C3: the 429, 429, 200 endpoint yields exactly 3 calls and a
success; the always-503 endpoint yields retries-exhausted after exactly 4
calls. -/
theorem retry_policy_correct_witness :
    runRetry mockRetry429 = (.ok, 3, [1, 2]) ∧
    runRetry mockRetry503 = (.exhausted (.apiErr 503), 4, [1, 2, 4]) := by
  constructor
  · exact (retry_policy_correct mockRetry429 (fun i => rfl)).2.2 2 (by omega)
      (fun j hj => by interval_cases j <;> rfl) rfl
  · exact (retry_policy_correct mockRetry503 (fun i => rfl)).1 (fun j hj => rfl)

/-! ## Lemmas: batched upsert -/

/-- The effective batch size is always positive. -/
theorem one_le_effBatchSize (batchSize : Int) : 1 ≤ effBatchSize batchSize := by
  simp only [effBatchSize]
  split <;> omega

/-- With enough fuel, concatenating the groups gives back the input. -/
theorem groupsOfAux_flatten (bs : Nat) (hbs : 1 ≤ bs) :
    ∀ fuel l, l.length ≤ fuel → (groupsOfAux bs fuel l).flatten = l := by
  intro fuel
  induction fuel with
  | zero =>
    intro l h
    cases l with
    | nil => rfl
    | cons a t => simp at h
  | succ n ih =>
    intro l h
    cases l with
    | nil => rfl
    | cons a t =>
      have h' : t.length + 1 ≤ n + 1 := by simpa using h
      have hd : ((a :: t).drop bs).length ≤ n := by
        simp only [List.length_drop, List.length_cons]
        omega
      calc (groupsOfAux bs (n + 1) (a :: t)).flatten
          = (a :: t).take bs ++ (groupsOfAux bs n ((a :: t).drop bs)).flatten := by
            simp [groupsOfAux]
        _ = (a :: t).take bs ++ (a :: t).drop bs := by rw [ih _ hd]
        _ = a :: t := List.take_append_drop bs (a :: t)

/-- Concatenating the groups of an input gives back the input: the split is
into consecutive runs in input order. -/
theorem groupsOf_flatten (bs : Nat) (hbs : 1 ≤ bs) (l : List IndexedChunk) :
    (groupsOf bs l).flatten = l :=
  groupsOfAux_flatten bs hbs l.length l (Nat.le_refl _)

/-- Every group has at most bs records. -/
theorem groupsOfAux_length_le (bs : Nat) :
    ∀ fuel l g, g ∈ groupsOfAux bs fuel l → g.length ≤ bs := by
  intro fuel
  induction fuel with
  | zero => intro l g hg; simp [groupsOfAux] at hg
  | succ n ih =>
    intro l g hg
    cases l with
    | nil => simp [groupsOfAux] at hg
    | cons a t =>
      rcases (by simpa [groupsOfAux] using hg : g = (a :: t).take bs ∨ g ∈ groupsOfAux bs n ((a :: t).drop bs)) with h | h
      · subst h
        simp [List.length_take]
      · exact ih _ _ h

/-- When every group write succeeds, all groups are written in order. -/
theorem runGroups_ok (outcome : Nat → Bool) (h : ∀ i, outcome i = true) :
    ∀ gs idx, runGroups outcome gs idx = (.ok (), gs) := by
  intro gs
  induction gs with
  | nil => intro idx; rfl
  | cons g rest ih => intro idx; simp [runGroups, h idx, ih (idx + 1)]

/-- When the k-th group write fails after k successes, the loop stops there:
it reports the failing group index, and exactly the first k+1 groups were
attempted. -/
theorem runGroups_fail (outcome : Nat → Bool) :
    ∀ gs idx k, (∀ i, i < k → outcome (idx + i) = true) → outcome (idx + k) = false →
      k < gs.length →
      runGroups outcome gs idx = (.error (idx + k), gs.take (k + 1)) := by
  intro gs
  induction gs with
  | nil => intro idx k _ _ hk; simp at hk
  | cons g rest ih =>
    intro idx k hpre hk hlen
    cases k with
    | zero => simp [runGroups, show outcome idx = false by simpa using hk]
    | succ k2 =>
      have h0 : outcome idx = true := by simpa using hpre 0 (by omega)
      have hrec := ih (idx + 1) k2
        (fun i hi => by
          have := hpre (i + 1) (by omega)
          simpa [Nat.add_assoc, Nat.add_comm, Nat.add_left_comm] using this)
        (by simpa [Nat.add_assoc, Nat.add_comm, Nat.add_left_comm] using hk)
        (by simpa using hlen)
      simp only [runGroups, h0, if_true, hrec, List.take_succ_cons]
      have harith : idx + 1 + k2 = idx + (k2 + 1) := by omega
      rw [harith]

/-- C4: for every non-empty input, the batched upsert splits it into
consecutive groups of at most batchSize records (default 100 when the
configured size is non-positive) issued in input order; when a group's write
fails the operation stops and returns an error naming the failing group
index while the groups written before it remain written; total success
writes every group. -/
theorem upsert_batching_correct (batchSize : Int) (outcome : Nat → Bool)
    (chunks : List IndexedChunk) (hne : chunks ≠ []) :
    (batchSize ≤ 0 → effBatchSize batchSize = 100)
    ∧ (∀ g ∈ groupsOf (effBatchSize batchSize) chunks, g.length ≤ effBatchSize batchSize)
    ∧ (groupsOf (effBatchSize batchSize) chunks).flatten = chunks
    ∧ ((∀ i, outcome i = true) →
        upsertChunks batchSize outcome chunks = (.ok (), groupsOf (effBatchSize batchSize) chunks))
    ∧ (∀ k, (∀ i, i < k → outcome i = true) → outcome k = false →
        k < (groupsOf (effBatchSize batchSize) chunks).length →
        upsertChunks batchSize outcome chunks =
          (.error k, (groupsOf (effBatchSize batchSize) chunks).take (k + 1))) := by
  have hempty : chunks.isEmpty = false := by
    cases chunks with
    | nil => exact absurd rfl hne
    | cons a t => rfl
  refine ⟨fun h => by simp [effBatchSize, h], ?_, ?_, ?_, ?_⟩
  · intro g hg
    exact groupsOfAux_length_le (effBatchSize batchSize) chunks.length chunks g hg
  · exact groupsOf_flatten (effBatchSize batchSize) (one_le_effBatchSize batchSize) chunks
  · intro hall
    simp only [upsertChunks, hempty, Bool.false_eq_true, if_false]
    exact runGroups_ok outcome hall _ 0
  · intro k hpre hk hlen
    simp only [upsertChunks, hempty, Bool.false_eq_true, if_false]
    have := runGroups_fail outcome (groupsOf (effBatchSize batchSize) chunks) 0 k
      (fun i hi => by simpa using hpre i hi) (by simpa using hk) hlen
    simpa using this

/-- A fixed record used by concrete examples. -/
def dummyRec : IndexedChunk :=
  { id := "x", filePath := "f", projectPath := "p", projectType := "unknown",
    language := "go", chunkType := "code", content := "c", embedding := [],
    startLine := 1, endLine := 2, lastIndexed := 0 }

/-- Twelve records, as in the 12-chunk example of the spec. -/
def twelveRecs : List IndexedChunk := List.replicate 12 dummyRec

/-- Witness for C4: with batchSize 5 and 12 records, every group write
happens, and exactly 3 group writes occur with sizes 5, 5 and 2. -/
theorem upsert_batching_correct_witness :
    upsertChunks 5 (fun _ => true) twelveRecs = (.ok (), groupsOf 5 twelveRecs)
    ∧ (groupsOf 5 twelveRecs).map List.length = [5, 5, 2] := by
  refine ⟨(upsert_batching_correct 5 (fun _ => true) twelveRecs (by decide)).2.2.2.1 (fun i => rfl), ?_⟩
  decide

/-! ## C8 and C9: empty-input behavior and hybrid search shape -/

/-- A retry environment whose first attempt succeeds. -/
def okRetryEnv : RetryEnv :=
  { outcomes := fun _ => .ok, ctxDoneBeforeSleep := fun _ => false }

/-- A benign embedding-client environment. -/
def plainEmbedEnv : EmbedEnv :=
  { limiterOk := true, retryEnv := okRetryEnv, responseEmbeddings := [] }

/-- C8 counterexample: EmbedBatch on the empty texts slice is not an
error-free no-op: the client rejects empty input with an invalid-input error
(the repository's own test TestEmbedBatch_EmptyBatch expects exactly this
error), although it does make zero network calls. -/
theorem embedBatch_empty_returns_error_cex :
    (embedBatch plainEmbedEnv []).1 = Except.error EmbedError.emptyInput
    ∧ (embedBatch plainEmbedEnv []).2 = 0 := ⟨rfl, rfl⟩

/-- C8 (amended): UpsertBatch on an empty record slice is a no-op — no
error, no network call; EmbedBatch on an empty texts slice also performs no
network call, but returns an invalid-input error rather than succeeding. -/
theorem empty_batch_behavior (env : EmbedEnv) (batchSize : Int) (outcome : Nat → Bool) :
    embedBatch env [] = (Except.error EmbedError.emptyInput, 0)
    ∧ upsertChunks batchSize outcome [] = (Except.ok (), []) := ⟨rfl, rfl⟩

/-- C9: every issued search query asks lexical match on content and carries
a vector-similarity component exactly when the supplied query vector is
non-empty; a 200 reply with zero matches yields the empty result slice with
no error. -/
theorem search_query_shape (collection q : String) (embedding : List Int) (limit : Int)
    (resp : SearchResponse) :
    ((search collection q embedding limit resp).1.vectorQuery.isSome ↔ embedding ≠ [])
    ∧ (search collection q embedding limit resp).1.queryBy = "content"
    ∧ (resp.status = 200 → resp.results.headD [] = [] →
        (search collection q embedding limit resp).2 = Except.ok []) := by
  refine ⟨?_, rfl, ?_⟩
  · cases embedding <;> simp [search, buildSearchRequest]
  · intro h200 hempty
    cases hr : resp.results with
    | nil => simp [search, h200, hr]
    | cons a t =>
      rw [hr] at hempty
      simp at hempty
      simp [search, h200, hr, hempty]

/-- Witness for C9: a two-component vector produces a request with the
vector component, the empty vector produces a lexical-only request, and a
zero-match 200 reply returns the empty slice without error. -/
theorem search_query_shape_witness :
    ((search "swarm-index" "q" [1, 2] 10 { status := 200, results := [[]] }).1.vectorQuery.isSome = true)
    ∧ ((search "swarm-index" "q" [] 10 { status := 200, results := [[]] }).1.vectorQuery = none)
    ∧ (search "swarm-index" "q" [] 10 { status := 200, results := [[]] }).2 = Except.ok [] := by
  refine ⟨?_, rfl, (search_query_shape "swarm-index" "q" [] 10 { status := 200, results := [[]] }).2.2 rfl rfl⟩
  exact (search_query_shape "swarm-index" "q" [1, 2] 10 { status := 200, results := [[]] }).1.mpr (by decide)

/-! ## Lemmas: worker loop invariants -/

/-- The records a job contributes to the batch: the produced chunks on
success, nothing on failure. -/
def jobChunks (env : RootEnv) (j : Nat × FileJob) : List IndexedChunk :=
  match (processFile env.now (env.fileEnv j.1) j.2).1 with
  | .ok cs => cs
  | .error _ => []

/-- Whether processing a job fails. -/
def jobFails (env : RootEnv) (j : Nat × FileJob) : Bool :=
  match (processFile env.now (env.fileEnv j.1) j.2).1 with
  | .ok _ => false
  | .error _ => true

/-- Appending to the batch never touches the counters, and keeps the total
sequence of records (flushed plus buffered) equal to the old total plus the
appended records; the flush-outcome log stays aligned with the attempts. -/
theorem appendChunks_facts (env : RootEnv) (bs : Nat) (s : WState) (chunks : List IndexedChunk) :
    (appendChunks env bs s chunks).step = s.step
    ∧ (appendChunks env bs s chunks).processed = s.processed
    ∧ (appendChunks env bs s chunks).failures = s.failures
    ∧ (appendChunks env bs s chunks).embedCalls = s.embedCalls
    ∧ ((appendChunks env bs s chunks).flushes.flatten ++ (appendChunks env bs s chunks).batch
        = s.flushes.flatten ++ s.batch ++ chunks)
    ∧ (s.flushResults = (List.range s.flushes.length).map env.upsertOk →
        (appendChunks env bs s chunks).flushResults
          = (List.range (appendChunks env bs s chunks).flushes.length).map env.upsertOk) := by
  by_cases he : chunks.isEmpty
  · have hq : chunks = [] := List.isEmpty_iff.mp he
    subst hq
    simp [appendChunks]
  · have he' : chunks.isEmpty = false := by
      cases h : chunks.isEmpty
      · rfl
      · exact absurd h he
    by_cases hf : bs ≤ s.batch.length + chunks.length
    · refine ⟨?_, ?_, ?_, ?_, ?_, ?_⟩
      · simp [appendChunks, he', hf]
      · simp [appendChunks, he', hf]
      · simp [appendChunks, he', hf]
      · simp [appendChunks, he', hf]
      · simp [appendChunks, he', hf, List.append_assoc]
      · intro hfr
        simp [appendChunks, he', hf, List.range_succ, hfr]
    · refine ⟨?_, ?_, ?_, ?_, ?_, ?_⟩
      · simp [appendChunks, he', hf]
      · simp [appendChunks, he', hf]
      · simp [appendChunks, he', hf]
      · simp [appendChunks, he', hf]
      · simp [appendChunks, he', hf, List.append_assoc]
      · intro hfr
        simp [appendChunks, he', hf, hfr]

/-- One job step advances the check counter and the processed counter by
one, adds one failure exactly when the job fails, appends exactly the job's
records to the flushed-plus-buffered total, and keeps the flush log aligned
with the attempts. -/
theorem stepJob_facts (env : RootEnv) (bs : Nat) (s : WState) (j : Nat × FileJob) :
    (stepJob env bs s j).step = s.step + 1
    ∧ (stepJob env bs s j).processed = s.processed + 1
    ∧ (stepJob env bs s j).failures = s.failures + (if jobFails env j then 1 else 0)
    ∧ ((stepJob env bs s j).flushes.flatten ++ (stepJob env bs s j).batch
        = s.flushes.flatten ++ s.batch ++ jobChunks env j)
    ∧ (s.flushResults = (List.range s.flushes.length).map env.upsertOk →
        (stepJob env bs s j).flushResults
          = (List.range (stepJob env bs s j).flushes.length).map env.upsertOk) := by
  have hfail : (match (processFile env.now (env.fileEnv j.1) j.2).1 with
      | Except.ok _ => 0 | Except.error _ => 1) = (if jobFails env j then 1 else 0) := by
    rcases h : (processFile env.now (env.fileEnv j.1) j.2).1 with cs | e <;> simp [jobFails, h]
  have hchunks : (match (processFile env.now (env.fileEnv j.1) j.2).1 with
      | Except.ok cs => cs | Except.error _ => ([] : List IndexedChunk)) = jobChunks env j := by
    rcases h : (processFile env.now (env.fileEnv j.1) j.2).1 with cs | e <;> simp [jobChunks, h]
  simp only [stepJob, hfail, hchunks]
  obtain ⟨a1, a2, a3, a4, a5, a6⟩ := appendChunks_facts env bs
    { s with step := s.step + 1,
             embedCalls := s.embedCalls + (processFile env.now (env.fileEnv j.1) j.2).2,
             failures := s.failures + (if jobFails env j then 1 else 0),
             processed := s.processed + 1 }
    (jobChunks env j)
  exact ⟨a1, a2, a3, a5, fun hfr => a6 hfr⟩

/-- While no context check in range fires, the worker loop never cancels:
every job is processed, exactly the failing ones are counted, and the
flushed-plus-buffered records grow by exactly each job's produced records,
with the flush log aligned to the attempts. -/
theorem runJobs_complete (env : RootEnv) (bs : Nat) :
    ∀ jobs s, (∀ t, s.step ≤ t → t < s.step + jobs.length → ctxDone env.ctxCancelFrom t = false) →
      (runJobs env bs jobs s).1 = false
      ∧ (runJobs env bs jobs s).2.step = s.step + jobs.length
      ∧ (runJobs env bs jobs s).2.processed = s.processed + jobs.length
      ∧ (runJobs env bs jobs s).2.failures = s.failures + jobs.countP (jobFails env)
      ∧ ((runJobs env bs jobs s).2.flushes.flatten ++ (runJobs env bs jobs s).2.batch
          = s.flushes.flatten ++ s.batch ++ (jobs.map (jobChunks env)).flatten)
      ∧ (s.flushResults = (List.range s.flushes.length).map env.upsertOk →
          (runJobs env bs jobs s).2.flushResults
            = (List.range (runJobs env bs jobs s).2.flushes.length).map env.upsertOk) := by
  intro jobs
  induction jobs with
  | nil =>
    intro s _
    simp [runJobs]
  | cons j rest ih =>
    intro s hnc
    have hcd : ctxDone env.ctxCancelFrom s.step = false :=
      hnc s.step (Nat.le_refl _) (by simp)
    obtain ⟨a1, a2, a3, a4, a5⟩ := stepJob_facts env bs s j
    obtain ⟨b1, b2, b3, b4, b5, b6⟩ := ih (stepJob env bs s j)
      (fun t h1 h2 => hnc t (by omega) (by simp only [List.length_cons]; omega))
    simp only [runJobs, hcd, Bool.false_eq_true, if_false]
    refine ⟨b1, ?_, ?_, ?_, ?_, ?_⟩
    · rw [b2, a1, List.length_cons]
      omega
    · rw [b3, a2, List.length_cons]
      omega
    · rw [b4, a3, List.countP_cons]
      omega
    · rw [b5, a4, List.map_cons, List.flatten_cons]
      simp [List.append_assoc]
    · intro hfr
      exact b6 (a5 hfr)

/-- When the context is canceled from check index k onward and k falls
inside the job range, the worker loop cancels after processing exactly the
jobs whose checks preceded k, and the loop reports cancellation. -/
theorem runJobs_cancel (env : RootEnv) (bs : Nat) (k : Nat) (hctx : env.ctxCancelFrom = some k) :
    ∀ jobs s, s.step ≤ k → k < s.step + jobs.length →
      (runJobs env bs jobs s).1 = true
      ∧ (runJobs env bs jobs s).2.processed = s.processed + (k - s.step) := by
  intro jobs
  induction jobs with
  | nil =>
    intro s h1 h2
    simp at h2
    omega
  | cons j rest ih =>
    intro s h1 h2
    by_cases hk : k ≤ s.step
    · have hcd : ctxDone env.ctxCancelFrom s.step = true := by
        simp [ctxDone, hctx]
        omega
      simp only [runJobs, hcd, if_true]
      have : k - s.step = 0 := by omega
      rw [this]
      simp
    · have hcd : ctxDone env.ctxCancelFrom s.step = false := by
        simp [ctxDone, hctx]
        omega
      obtain ⟨a1, a2, a3, a4, a5⟩ := stepJob_facts env bs s j
      obtain ⟨c1, c2⟩ := ih (stepJob env bs s j) (by omega)
        (by rw [a1]; simp only [List.length_cons] at h2; omega)
      simp only [runJobs, hcd, Bool.false_eq_true, if_false]
      refine ⟨c1, ?_⟩
      rw [c2, a2, a1]
      omega

/-- The final flush empties the buffer into one more flush attempt, touches
no counters, and keeps the flush log aligned with the attempts. -/
theorem finalFlush_facts (env : RootEnv) (s : WState) :
    (finalFlush env s).step = s.step
    ∧ (finalFlush env s).processed = s.processed
    ∧ (finalFlush env s).failures = s.failures
    ∧ (finalFlush env s).embedCalls = s.embedCalls
    ∧ (finalFlush env s).flushes.flatten = s.flushes.flatten ++ s.batch
    ∧ (s.flushResults = (List.range s.flushes.length).map env.upsertOk →
        (finalFlush env s).flushResults = (List.range (finalFlush env s).flushes.length).map env.upsertOk) := by
  by_cases he : s.batch.isEmpty
  · have hq : s.batch = [] := List.isEmpty_iff.mp he
    simp [finalFlush, he, hq]
  · have he' : s.batch.isEmpty = false := by
      cases h : s.batch.isEmpty
      · rfl
      · exact absurd h he
    refine ⟨?_, ?_, ?_, ?_, ?_, ?_⟩
    · simp [finalFlush, he']
    · simp [finalFlush, he']
    · simp [finalFlush, he']
    · simp [finalFlush, he']
    · simp [finalFlush, he']
    · intro hfr
      simp [finalFlush, he', List.range_succ, hfr]

/-- Shape of indexPath on a changed root whose walk succeeds and whose run
is never canceled: success, one walk, a metadata save of the new hash, and
the trace of the joined worker state after the final flush. -/
theorem indexPath_run (batchSize : Nat) (env : RootEnv) (files : List WFile)
    (hchanged : hashChangedB env = true) (hwalk : env.walk = .ok files) (hne : files.isEmpty = false)
    (hdone : (runJobs env batchSize (jobsOf env files) initWState).1 = false)
    (hpost : ctxDone env.ctxCancelFrom (runJobs env batchSize (jobsOf env files) initWState).2.step = false) :
    indexPath batchSize env =
      (.ok (), traceOf (finalFlush env (runJobs env batchSize (jobsOf env files) initWState).2) 1
        [computeHash env.dirEntries]) := by
  simp [indexPath, hchanged, hwalk, hne, hdone, hpost]

/-- Shape of indexPath when a worker's context check fires mid-loop. -/
theorem indexPath_canceled_in_loop (batchSize : Nat) (env : RootEnv) (files : List WFile)
    (hchanged : hashChangedB env = true) (hwalk : env.walk = .ok files) (hne : files.isEmpty = false)
    (hdone : (runJobs env batchSize (jobsOf env files) initWState).1 = true) :
    indexPath batchSize env =
      (.error .canceled, traceOf (runJobs env batchSize (jobsOf env files) initWState).2 1 []) := by
  simp [indexPath, hchanged, hwalk, hne, hdone]

/-- Shape of indexPath when the loop drains but the post-join context check
fires: cancellation is returned and no metadata is saved. -/
theorem indexPath_canceled_post (batchSize : Nat) (env : RootEnv) (files : List WFile)
    (hchanged : hashChangedB env = true) (hwalk : env.walk = .ok files) (hne : files.isEmpty = false)
    (hdone : (runJobs env batchSize (jobsOf env files) initWState).1 = false)
    (hpost : ctxDone env.ctxCancelFrom (runJobs env batchSize (jobsOf env files) initWState).2.step = true) :
    indexPath batchSize env =
      (.error .canceled, traceOf (runJobs env batchSize (jobsOf env files) initWState).2 1 []) := by
  simp [indexPath, hchanged, hwalk, hne, hdone, hpost]

/-- C2: for every root whose freshly computed content hash equals the hash
stored by the metadata collaborator, indexing that root is skipped entirely:
the walker is not invoked, no embedding calls are made, no upserts are
issued, no metadata is written, and the per-root indexing returns
success. -/
theorem unchanged_root_skipped (batchSize : Nat) (env : RootEnv) (m : Metadata)
    (hload : env.loadResult = .ok m) (hhash : m.contentHash = computeHash env.dirEntries) :
    (indexPath batchSize env).1 = .ok ()
    ∧ (indexPath batchSize env).2.walkCalls = 0
    ∧ (indexPath batchSize env).2.embedCalls = 0
    ∧ (indexPath batchSize env).2.flushes = []
    ∧ (indexPath batchSize env).2.saves = [] := by
  have h : hashChangedB env = false := by simp [hashChangedB, hload, hhash]
  simp [indexPath, h, emptyTrace]

/-- A benign per-file environment producing one chunk. -/
def okFileEnv : FileEnv :=
  { scanFile := .ok false, readFile := .ok ("package main"), scanContent := .ok [],
    language := "go",
    chunks := .ok [{ content := "package main", startLine := 1, endLine := 1, ctype := "code" }],
    embeds := .ok [[1]] }

/-- A root whose stored metadata hash equals the freshly computed hash. -/
def skipEnv : RootEnv :=
  { root := "/r",
    loadResult := .ok { lastIndexed := 0, fileCount := 0, contentHash := computeHash [],
                        projectType := "unknown", languages := [] },
    dirEntries := [],
    walk := .ok [{ path := "/r/main.go", relPath := "main.go" }],
    fileEnv := fun _ => okFileEnv,
    upsertOk := fun _ => true,
    ctxCancelFrom := none,
    now := 0 }

/-- Witness for C2: on the unchanged root, the second run does no walk, no
embedding call, no upsert, no metadata write, and succeeds. -/
theorem unchanged_root_skipped_witness :
    (indexPath 100 skipEnv).1 = .ok ()
    ∧ (indexPath 100 skipEnv).2.walkCalls = 0
    ∧ (indexPath 100 skipEnv).2.embedCalls = 0
    ∧ (indexPath 100 skipEnv).2.flushes = []
    ∧ (indexPath 100 skipEnv).2.saves = [] :=
  unchanged_root_skipped 100 skipEnv
    { lastIndexed := 0, fileCount := 0, contentHash := computeHash [],
      projectType := "unknown", languages := [] } rfl rfl

/-- C5: per-file failures never abort the run: with the context live, every
walked file is processed, the failure counter equals the number of failing
files, the per-root result is success, and the overall run over the root
list reports no error. -/
theorem per_file_failures_do_not_abort (batchSize : Nat) (env : RootEnv) (files : List WFile)
    (hchanged : hashChangedB env = true) (hwalk : env.walk = .ok files)
    (hctx : env.ctxCancelFrom = none) :
    (indexPath batchSize env).1 = .ok ()
    ∧ (indexPath batchSize env).2.processed = files.length
    ∧ (indexPath batchSize env).2.failures = (jobsOf env files).countP (jobFails env)
    ∧ indexPaths batchSize [env] = .ok () := by
  by_cases hne : files.isEmpty
  · have hfe : files = [] := List.isEmpty_iff.mp hne
    subst hfe
    simp [indexPath, hchanged, hwalk, indexPaths, jobsOf, emptyTrace]
  · have hne' : files.isEmpty = false := by
      cases h : files.isEmpty
      · rfl
      · exact absurd h hne
    obtain ⟨b1, b2, b3, b4, b5, b6⟩ := runJobs_complete env batchSize (jobsOf env files) initWState
      (fun t h1 h2 => by simp [ctxDone, hctx])
    have hpost : ctxDone env.ctxCancelFrom (runJobs env batchSize (jobsOf env files) initWState).2.step = false := by
      simp [ctxDone, hctx]
    have hshape := indexPath_run batchSize env files hchanged hwalk hne' b1 hpost
    obtain ⟨f1, f2, f3, f4, f5, f6⟩ := finalFlush_facts env (runJobs env batchSize (jobsOf env files) initWState).2
    refine ⟨by rw [hshape], ?_, ?_, ?_⟩
    · rw [hshape]
      show (traceOf _ 1 _).processed = files.length
      simp only [traceOf, f2, b3]
      simp [initWState, jobsOf]
    · rw [hshape]
      show (traceOf _ 1 _).failures = (jobsOf env files).countP (jobFails env)
      simp only [traceOf, f3, b4]
      simp [initWState]
    · simp [indexPaths, hshape]

/-- A per-file environment whose read step fails. -/
def readFailFileEnv : FileEnv :=
  { okFileEnv with readFile := .error ("no such file") }

/-- Ten walked files. -/
def tenFiles : List WFile :=
  (List.range 10).map (fun i => { path := "/r/f" ++ toString i, relPath := "f" ++ toString i })

/-- A changed root with ten files of which exactly the first fails at the
read step. -/
def c5env : RootEnv :=
  { root := "/r",
    loadResult := .error ("no metadata"),
    dirEntries := [],
    walk := .ok tenFiles,
    fileEnv := fun j => if j == 0 then readFailFileEnv else okFileEnv,
    upsertOk := fun _ => true,
    ctxCancelFrom := none,
    now := 0 }

/-- Witness for C5: with 1 of 10 files failing at the read step, all 10 are
processed, the failure counter is 1, and the run does not error out. -/
theorem per_file_failures_do_not_abort_witness :
    (indexPath 100 c5env).1 = .ok ()
    ∧ (indexPath 100 c5env).2.processed = 10
    ∧ (indexPath 100 c5env).2.failures = 1
    ∧ indexPaths 100 [c5env] = .ok () := by
  obtain ⟨h1, h2, h3, h4⟩ := per_file_failures_do_not_abort 100 c5env tenFiles rfl rfl rfl
  refine ⟨h1, ?_, ?_, h4⟩
  · rw [h2]
    rfl
  · rw [h3]
    decide

/-- C6: canceling the context mid-run stops the workers after exactly the
jobs whose context checks preceded the cancellation point, makes the
per-root run return the cancellation error without writing any metadata for
the root, and makes the run over the root list return the cancellation
error. -/
theorem cancellation_stops_run (batchSize : Nat) (env : RootEnv) (files : List WFile) (k : Nat)
    (hchanged : hashChangedB env = true) (hwalk : env.walk = .ok files)
    (hne : files.isEmpty = false) (hctx : env.ctxCancelFrom = some k) (hk : k ≤ files.length) :
    (indexPath batchSize env).1 = .error .canceled
    ∧ (indexPath batchSize env).2.saves = []
    ∧ (indexPath batchSize env).2.processed = k
    ∧ indexPaths batchSize [env] = .error .canceled := by
  have hjl : (jobsOf env files).length = files.length := by
    simp [jobsOf]
  by_cases hkn : k < files.length
  · obtain ⟨c1, c2⟩ := runJobs_cancel env batchSize k hctx (jobsOf env files) initWState
      (by simp [initWState]) (by simp [initWState, hjl]; omega)
    have hshape := indexPath_canceled_in_loop batchSize env files hchanged hwalk hne c1
    refine ⟨by rw [hshape], by rw [hshape]; rfl, ?_, by simp [indexPaths, hshape]⟩
    rw [hshape]
    show (traceOf _ 1 _).processed = k
    simp only [traceOf, c2]
    simp [initWState]
  · have hkeq : k = files.length := by omega
    obtain ⟨b1, b2, b3, b4, b5, b6⟩ := runJobs_complete env batchSize (jobsOf env files) initWState
      (fun t h1 h2 => by simp [ctxDone, hctx]; simp [initWState, hjl] at h2; omega)
    have hpost : ctxDone env.ctxCancelFrom (runJobs env batchSize (jobsOf env files) initWState).2.step = true := by
      simp only [ctxDone, hctx]
      rw [b2]
      simp [initWState, hjl]
      omega
    have hshape := indexPath_canceled_post batchSize env files hchanged hwalk hne b1 hpost
    refine ⟨by rw [hshape], by rw [hshape]; rfl, ?_, by simp [indexPaths, hshape]⟩
    rw [hshape]
    show (traceOf _ 1 _).processed = k
    simp only [traceOf, b3]
    simp [initWState, hjl, hkeq]

/-- A changed root with ten files and a context canceled from the fourth
check onward. -/
def c6env : RootEnv :=
  { c5env with fileEnv := fun _ => okFileEnv, ctxCancelFrom := some 3 }

/-- Witness for C6: cancellation at check index 3 stops the run after 3
processed files, returns the cancellation error, and writes no metadata. -/
theorem cancellation_stops_run_witness :
    (indexPath 100 c6env).1 = .error .canceled
    ∧ (indexPath 100 c6env).2.saves = []
    ∧ (indexPath 100 c6env).2.processed = 3
    ∧ indexPaths 100 [c6env] = .error .canceled :=
  cancellation_stops_run 100 c6env tenFiles 3 rfl rfl rfl rfl (by decide)

/-- C7: when a batch flush fails but the walk succeeds and the context stays
live, the run still completes successfully, the root's new content hash is
still handed to the metadata store, every produced record appears in exactly
one flush attempt (the failed batch is not retried within the run), and the
flush log records each attempt's outcome. -/
theorem flush_failure_run_continues (batchSize : Nat) (env : RootEnv) (files : List WFile) (g : Nat)
    (hchanged : hashChangedB env = true) (hwalk : env.walk = .ok files) (hne : files.isEmpty = false)
    (hctx : env.ctxCancelFrom = none) (hfail : env.upsertOk g = false)
    (hg : g < (indexPath batchSize env).2.flushes.length) :
    (indexPath batchSize env).1 = .ok ()
    ∧ (indexPath batchSize env).2.saves = [computeHash env.dirEntries]
    ∧ (indexPath batchSize env).2.flushes.flatten = ((jobsOf env files).map (jobChunks env)).flatten
    ∧ (indexPath batchSize env).2.flushResults
        = (List.range (indexPath batchSize env).2.flushes.length).map env.upsertOk := by
  obtain ⟨b1, b2, b3, b4, b5, b6⟩ := runJobs_complete env batchSize (jobsOf env files) initWState
    (fun t h1 h2 => by simp [ctxDone, hctx])
  have hpost : ctxDone env.ctxCancelFrom (runJobs env batchSize (jobsOf env files) initWState).2.step = false := by
    simp [ctxDone, hctx]
  have hshape := indexPath_run batchSize env files hchanged hwalk hne b1 hpost
  obtain ⟨f1, f2, f3, f4, f5, f6⟩ := finalFlush_facts env (runJobs env batchSize (jobsOf env files) initWState).2
  have htotal : (runJobs env batchSize (jobsOf env files) initWState).2.flushes.flatten
      ++ (runJobs env batchSize (jobsOf env files) initWState).2.batch
      = ((jobsOf env files).map (jobChunks env)).flatten := by
    rw [b5]
    simp [initWState]
  have halign := b6 (by simp [initWState])
  refine ⟨by rw [hshape], by rw [hshape]; rfl, ?_, ?_⟩
  · rw [hshape]
    show (traceOf _ 1 _).flushes.flatten = _
    simp only [traceOf]
    rw [f5, htotal]
  · rw [hshape]
    show (traceOf _ 1 _).flushResults = (List.range (traceOf _ 1 _).flushes.length).map env.upsertOk
    simp only [traceOf]
    exact f6 halign

/-- Two walked files. -/
def twoFiles : List WFile :=
  [{ path := "/r/a.go", relPath := "a.go" }, { path := "/r/b.go", relPath := "b.go" }]

/-- A changed root with two files whose every batch flush fails. -/
def c7env : RootEnv :=
  { root := "/r",
    loadResult := .error ("no metadata"),
    dirEntries := [],
    walk := .ok twoFiles,
    fileEnv := fun _ => okFileEnv,
    upsertOk := fun _ => false,
    ctxCancelFrom := none,
    now := 0 }

/-- Witness for C7: with batch size 1 and failing flushes, the run still
succeeds, the new hash is still saved, and no record is flushed twice. -/
theorem flush_failure_run_continues_witness :
    (indexPath 1 c7env).1 = .ok ()
    ∧ (indexPath 1 c7env).2.saves = [computeHash c7env.dirEntries]
    ∧ (indexPath 1 c7env).2.flushes.flatten = ((jobsOf c7env twoFiles).map (jobChunks c7env)).flatten
    ∧ (indexPath 1 c7env).2.flushResults
        = (List.range (indexPath 1 c7env).2.flushes.length).map c7env.upsertOk :=
  flush_failure_run_continues 1 c7env twoFiles 0 rfl rfl rfl rfl rfl (by decide)

/-! ## C1: what the chunk id is a function of -/

set_option maxHeartbeats 1000000 in
/-- Every record processFile produces carries id generateChunkID of the
job's walked path and the record's start line, and stores the job's relative
path in its filePath field. -/
theorem processFile_records (now : Int) (fe : FileEnv) (job : FileJob) (l : List IndexedChunk)
    (h : (processFile now fe job).1 = .ok l) (r : IndexedChunk) (hr : r ∈ l) :
    r.id = generateChunkID job.path r.startLine ∧ r.filePath = job.relPath := by
  simp only [processFile] at h
  rcases hsf : fe.scanFile with e | b <;> rw [hsf] at h
  · simp at h
  · cases b with
    | true =>
      simp at h
      subst h
      simp at hr
    | false =>
      rcases hrf : fe.readFile with e | content <;> rw [hrf] at h
      · simp at h
      · rcases hsc : fe.scanContent with e | findings <;> rw [hsc] at h
        · simp at h
        · rcases hch : fe.chunks with e | cl <;> rw [hch] at h
          · simp at h
          · cases cl with
            | nil =>
              simp at h
              subst h
              simp at hr
            | cons c cs =>
              rcases hem : fe.embeds with e | embeds <;> rw [hem] at h
              · simp at h
              · have hl : (c :: cs).enum.map
                    (fun jc => mkRecord now job fe.language embeds jc.1 jc.2) = l :=
                  Except.ok.inj h
                subst hl
                obtain ⟨jc, hmem, hrecord⟩ := List.mem_map.mp hr
                subst hrecord
                simp [mkRecord]

/-- C1 (amended): the id of every produced record is a pure function of the
job's walked (absolute) path and the chunk's start line: any two records
produced from the same file path with the same start line — in any runs,
at any times, under any collaborator responses — receive the same id, so
re-indexing the same chunk overwrites rather than duplicates. -/
theorem chunk_id_pure_function_of_path (now1 now2 : Int) (fe1 fe2 : FileEnv) (job1 job2 : FileJob)
    (l1 l2 : List IndexedChunk) (r1 r2 : IndexedChunk)
    (h1 : (processFile now1 fe1 job1).1 = .ok l1) (hr1 : r1 ∈ l1)
    (h2 : (processFile now2 fe2 job2).1 = .ok l2) (hr2 : r2 ∈ l2)
    (hpath : job1.path = job2.path) (hline : r1.startLine = r2.startLine) :
    r1.id = r2.id := by
  obtain ⟨e1, _⟩ := processFile_records now1 fe1 job1 l1 h1 r1 hr1
  obtain ⟨e2, _⟩ := processFile_records now2 fe2 job2 l2 h2 r2 hr2
  rw [e1, e2, hpath, hline]

/-- The job of the counterexample file: walked path /repo/a.go, relative
path a.go. -/
def cJob : FileJob := { path := "/repo/a.go", relPath := "a.go", projectPath := "/repo" }

/-- The record processFile builds for cJob's single chunk at time 0. -/
def cRec : IndexedChunk :=
  mkRecord 0 cJob "go" [[1]] 0 { content := "package main", startLine := 1, endLine := 1, ctype := "code" }

/-- The record processFile builds for cJob's single chunk at time 5. -/
def cRec5 : IndexedChunk :=
  mkRecord 5 cJob "go" [[1]] 0 { content := "package main", startLine := 1, endLine := 1, ctype := "code" }

/-- Witness for the amended C1: two runs over the same file at different
times produce records with the identical id. -/
theorem chunk_id_pure_function_of_path_witness :
    (processFile 0 okFileEnv cJob).1 = Except.ok [cRec]
    ∧ (processFile 5 okFileEnv cJob).1 = Except.ok [cRec5]
    ∧ cRec.id = cRec5.id :=
  ⟨rfl, rfl,
    chunk_id_pure_function_of_path 0 5 okFileEnv okFileEnv cJob cJob [cRec] [cRec5] cRec cRec5
      rfl (by simp) rfl (by simp) rfl rfl⟩

set_option maxRecDepth 1000000 in
set_option maxHeartbeats 2000000 in
/-- C1 counterexample: a produced record whose id is not stableHash of its
own relative path and start line — generateChunkID is applied to the job's
walked path (indexer.go line 479 passes job.path), not to the relative path
stored in the record, so the claim as stated fails on this record. -/
theorem chunk_id_not_relative_path_cex :
    (processFile 0 okFileEnv cJob).1 = Except.ok [cRec]
    ∧ cRec.filePath = "a.go"
    ∧ cRec.startLine = 1
    ∧ cRec.id ≠ generateChunkID cRec.filePath cRec.startLine := by
  refine ⟨rfl, rfl, rfl, ?_⟩
  decide

/-! ## C10: what the content hash depends on -/

/-- Sorting with strLe maps permuted string lists to the same result:
strLe is transitive, total and antisymmetric. -/
theorem mergeSort_strLe_congr {l1 l2 : List String} (h : l1.Perm l2) :
    l1.mergeSort strLe = l2.mergeSort strLe := by
  have htrans : ∀ a b c : String, strLe a b → strLe b c → strLe a c := fun a b c hab hbc =>
    decide_eq_true (le_trans (of_decide_eq_true hab) (of_decide_eq_true hbc))
  have htotal : ∀ a b : String, strLe a b || strLe b a := fun a b => by
    rcases le_total a b with hle | hle <;> simp [strLe, hle]
  have hanti : ∀ a b : String, strLe a b = true → strLe b a = true → a = b := fun a b hab hba =>
    le_antisymm (of_decide_eq_true hab) (of_decide_eq_true hba)
  exact @List.eq_of_perm_of_sorted String (fun a b => strLe a b = true) ⟨hanti⟩ _ _
    ((List.mergeSort_perm l1 strLe).trans (h.trans (List.mergeSort_perm l2 strLe).symm))
    (List.sorted_mergeSort htrans htotal l1)
    (List.sorted_mergeSort htrans htotal l2)

/-- The hash input strings are determined by the (relative path, mtime)
pairs of the filtered entries. -/
theorem entryStrings_eq_map_hashPairs (es : List DirEntry) :
    entryStrings es = (hashPairs es).map (fun p => p.1 ++ ":" ++ toString p.2) := by
  simp [entryStrings, hashPairs, List.map_map]

/-- Permuted hash inputs produce the identical content hash. -/
theorem computeHash_congr {es1 es2 : List DirEntry}
    (h : (entryStrings es1).Perm (entryStrings es2)) :
    computeHash es1 = computeHash es2 := by
  unfold computeHash
  rw [mergeSort_strLe_congr h]

/-- C10: the directory content hash depends only on the set of (relative
path, mtime) pairs of the non-metadata files under the root: entries are
sorted before hashing, so any two duplicate-free directory walks with equal
sets of such pairs, in any traversal order, yield the identical hash
string. -/
theorem computeHash_depends_only_on_pair_set (es1 es2 : List DirEntry)
    (h1 : (hashPairs es1).Nodup) (h2 : (hashPairs es2).Nodup)
    (hset : (hashPairs es1).toFinset = (hashPairs es2).toFinset) :
    computeHash es1 = computeHash es2 := by
  have hperm : (hashPairs es1).Perm (hashPairs es2) :=
    List.perm_of_nodup_nodup_toFinset_eq h1 h2 hset
  have hstr : (entryStrings es1).Perm (entryStrings es2) := by
    rw [entryStrings_eq_map_hashPairs, entryStrings_eq_map_hashPairs]
    exact hperm.map _
  exact computeHash_congr hstr

/-- A walk listing two files in one order. -/
def walkEntriesA : List DirEntry :=
  [{ relPath := "a.go", name := "a.go", isDir := false, mtimeNano := 100 },
   { relPath := "sub/b.go", name := "b.go", isDir := false, mtimeNano := 200 }]

/-- A walk over the same directory state in another traversal order, also
yielding a directory entry and the metadata sidecar file, which the hash
ignores. -/
def walkEntriesB : List DirEntry :=
  [{ relPath := "sub", name := "sub", isDir := true, mtimeNano := 999 },
   { relPath := "sub/b.go", name := "b.go", isDir := false, mtimeNano := 200 },
   { relPath := ".swarm-indexer-metadata.json", name := ".swarm-indexer-metadata.json",
     isDir := false, mtimeNano := 5 },
   { relPath := "a.go", name := "a.go", isDir := false, mtimeNano := 100 }]

/-- Witness for C10: the two traversal orders of the same directory state
hash identically. -/
theorem computeHash_depends_only_on_pair_set_witness :
    computeHash walkEntriesA = computeHash walkEntriesB :=
  computeHash_depends_only_on_pair_set walkEntriesA walkEntriesB (by decide) (by decide) (by decide)

end SwarmIndexer
